import Mathlib

/-!
Shallow embedding of the Blaze `DenseSubvector` view engine
(`blaze/math/views/DenseSubvector.h`) and verification of its
specification.

Modelling conventions:
* The parent dense vector's storage is a total function `Mem := Nat → Int`
  together with an explicit logical size `ps` (`vector_.size()`).  Indices at
  or beyond `ps` model the padding capacity of a `blaze::DynamicVector`
  (writes there are legal but are not part of the vector's value).
* Element type is `Int` (a concrete numeric element type); the intrinsic
  vector width `IT::size` is an explicit parameter `W`.
* The `vector_` member of `DenseSubvector` is a reference; its identity
  (the address compared by `canAlias`/`isAliased`) is modelled by a `Nat`
  tag stored in the `vector_` field.
* C++ `throw std::invalid_argument` is modelled by `Except String`.
* Loops are embedded one-to-one as tail-recursive functions whose guard is
  the loop condition of the source.
-/

/-- Storage of a parent dense vector: value at every element index. -/
def Mem : Type := Nat → Int

/-- Single element write `mem[i] = v`. -/
def upd (m : Mem) (i : Nat) (v : Int) : Mem :=
  fun q => if q = i then v else m q

/-- Performs `cnt` consecutive element writes `mem[p+j] = g j`, `j` counting up: the
loop of the partial-register branch of `DenseSubvector::storeu` and, with
`cnt = W`, a full intrinsic register store (`vector_.storeu`). -/
def storeLanes (m : Mem) (p : Nat) (g : Nat → Int) : Nat → Nat → Mem
  | _, 0 => m
  | j, c + 1 => storeLanes (upd m (p + j) (g j)) p g (j + 1) c

/-- The fields of `DenseSubvector<VT,TF>` (DenseSubvector.h, member
variables): `vector_` is the referenced parent (modelled by its identity
tag), the remaining fields are exactly the source's `size_t`/`bool`
members. -/
structure DenseSubvector where
  vector_ : Nat
  offset_ : Nat
  size_ : Nat
  rest_ : Nat
  final_ : Nat
  aligned_ : Bool
deriving Repr, DecidableEq

/-- The constructor `DenseSubvector( VT& vector, size_t index, size_t n )`
(lines 851-864): member initialisers compute `rest_`, `final_` and
`aligned_` from `index`, `n`, `W = IT::size` and `vector.size()`; the body
throws `std::invalid_argument` when `index + n > vector.size()`. -/
def mkDenseSubvector (vecId ps W index n : Nat) : Except String DenseSubvector :=
  if index + n > ps then
    Except.error "Invalid subvector specification"
  else
    Except.ok
      { vector_ := vecId
        offset_ := index
        size_ := n
        rest_ := n % W
        final_ := n - n % W
        aligned_ := decide (index % W = 0) &&
                    (decide (index + n = ps) || decide (n % W = 0)) }

/-- Field coherence of a `DenseSubvector` over a parent of size `ps` with
intrinsic width `W`: exactly what the constructor establishes for a view
that passed its bounds check. -/
def svWF (sv : DenseSubvector) (ps W : Nat) : Prop :=
  sv.offset_ + sv.size_ ≤ ps ∧
  sv.rest_ = sv.size_ % W ∧
  sv.final_ = sv.size_ - sv.size_ % W ∧
  (sv.aligned_ = true ↔
    (sv.offset_ % W = 0 ∧ (sv.offset_ + sv.size_ = ps ∨ sv.size_ % W = 0)))

instance (sv : DenseSubvector) (ps W : Nat) : Decidable (svWF sv ps W) := by
  unfold svWF; infer_instance

/-- Embedding of `operator[]` (lines 882-907): reads `vector_[offset_+index]`. -/
def svGet (sv : DenseSubvector) (m : Mem) (index : Nat) : Int :=
  m (sv.offset_ + index)

/-- Writing through the reference returned by `operator[]`: stores to
`vector_[offset_+index]`. -/
def svSet (sv : DenseSubvector) (m : Mem) (index : Nat) (v : Int) : Mem :=
  upd m (sv.offset_ + index) v

/-- Embedding of `size()` (lines 1304-1309): returns `size_`. -/
def svSize (sv : DenseSubvector) : Nat :=
  sv.size_

/-- Embedding of `canAlias( const Other* alias )` (lines 1407-1414): compares the address
of the referenced parent with `alias`. -/
def svCanAlias (sv : DenseSubvector) (addr : Nat) : Bool :=
  sv.vector_ == addr

/-- Embedding of `isAliased( const Other* alias )` (lines 1427-1434): same comparison. -/
def svIsAliased (sv : DenseSubvector) (addr : Nat) : Bool :=
  sv.vector_ == addr

/-- Intrinsic register loaded from a dense operand at element index `i`
(`it.load()` / `(~rhs).load(i)` on the right-hand side): lane `j` holds
element `i + j`. -/
def loadAt (rhs : Nat → Int) (i : Nat) : Nat → Int :=
  fun j => rhs (i + j)

/-- Embedding of `loadu( size_t index )` (lines 1473-1493): full unaligned register load
when `aligned_ || index != final_`, otherwise only the first `rest_` lanes
are filled from the parent (the remaining lanes of the default-initialised
register are modelled as `0`). -/
def svLoadu (sv : DenseSubvector) (m : Mem) (index : Nat) : Nat → Int :=
  if sv.aligned_ || index ≠ sv.final_ then
    fun j => m (sv.offset_ + index + j)
  else
    fun j => if j < sv.rest_ then m (sv.offset_ + index + j) else 0

/-- Embedding of `storeu( size_t index, value )` (lines 1533-1550): full register store
`vector_.storeu(offset_+index, value)` when `aligned_ || index != final_`,
otherwise only the `rest_` valid lanes are written element-wise. -/
def svStoreu (sv : DenseSubvector) (W : Nat) (m : Mem) (index : Nat) (g : Nat → Int) : Mem :=
  if sv.aligned_ || index ≠ sv.final_ then
    storeLanes m (sv.offset_ + index) g 0 W
  else
    storeLanes m (sv.offset_ + index) g 0 sv.rest_

/-- The loop `for( i=offset_; i<offset_+size_; ++i ) vector_[i] = v` shared
by `operator=( const ElementType& )` (lines 1052-1062) and `reset()`
(lines 1357-1366, where `reset(vector_[i])` sets the default value `0`). -/
def svFillLoop (m : Mem) (v : Int) (i iend : Nat) : Mem :=
  if h : i < iend then
    svFillLoop (upd m i v) v (i + 1) iend
  else m
termination_by iend - i

/-- Embedding of `operator=( const ElementType& rhs )` (lines 1052-1062). -/
def svAssignScalar (sv : DenseSubvector) (m : Mem) (v : Int) : Mem :=
  svFillLoop m v sv.offset_ (sv.offset_ + sv.size_)

/-- Embedding of `reset()` (lines 1357-1366). -/
def svReset (sv : DenseSubvector) (m : Mem) : Mem :=
  svFillLoop m 0 sv.offset_ (sv.offset_ + sv.size_)

/-- The loop of `scale( const Other& scalar )` (lines 1376-1385):
`vector_[i] *= scalar` for `i` in `[offset_, offset_+size_)`. -/
def svScaleLoop (m : Mem) (s : Int) (i iend : Nat) : Mem :=
  if h : i < iend then
    svScaleLoop (upd m i (m i * s)) s (i + 1) iend
  else m
termination_by iend - i

/-- Embedding of `scale( const Other& scalar )` (lines 1376-1385). -/
def svScale (sv : DenseSubvector) (m : Mem) (s : Int) : Mem :=
  svScaleLoop m s sv.offset_ (sv.offset_ + sv.size_)

/-- The unrolled-by-2 loop of the scalar (non-vectorized) `assign` kernel
(lines 1587-1603): `vector_[i+offset_] = rhs[i]; vector_[i+offset_+1] =
rhs[i+1]` while `i < iend`, stepping by 2. -/
def assignDefaultLoop (off : Nat) (rhs : Nat → Int) (m : Mem) (iend i : Nat) : Mem :=
  if h : i < iend then
    assignDefaultLoop off rhs
      (upd (upd m (i + off) (rhs i)) (i + off + 1) (rhs (i + 1))) iend (i + 2)
  else m
termination_by iend - i

/-- Scalar `assign( const DenseVector& rhs )` kernel (lines 1587-1603):
`iend = size() & size_t(-2)` (the largest even index bound, asserted equal
to `size - size % 2`), the unrolled pair loop, then the odd tail element. -/
def svAssignDenseDefault (sv : DenseSubvector) (m : Mem) (rhs : Nat → Int) : Mem :=
  let iend := sv.size_ - sv.size_ % 2
  let m1 := assignDefaultLoop sv.offset_ rhs m iend 0
  if iend < sv.size_ then upd m1 (iend + sv.offset_) (rhs iend) else m1

/-- The unrolled-by-2 loop shared (up to the element operation `f`) by the
scalar `addAssign`/`subAssign`/`multAssign` kernels over a dense right-hand
side (lines 1694-1707, 1787-1800, 1880-1893):
`vector_[i+offset_] f= rhs[i]; vector_[i+offset_+1] f= rhs[i+1]`. -/
def opDefaultLoop (f : Int → Int → Int) (off : Nat) (rhs : Nat → Int) (m : Mem) (iend i : Nat) : Mem :=
  if h : i < iend then
    let m1 := upd m (i + off) (f (m (i + off)) (rhs i))
    opDefaultLoop f off rhs
      (upd m1 (i + off + 1) (f (m1 (i + off + 1)) (rhs (i + 1)))) iend (i + 2)
  else m
termination_by iend - i

/-- Scalar compound-assignment kernel over a dense right-hand side:
`f = (+)` is `addAssign` (lines 1694-1707), `f = (-)` is `subAssign`
(lines 1787-1800), `f = (*)` is `multAssign` (lines 1880-1893). -/
def svOpDenseDefault (f : Int → Int → Int) (sv : DenseSubvector) (m : Mem) (rhs : Nat → Int) : Mem :=
  let iend := sv.size_ - sv.size_ % 2
  let m1 := opDefaultLoop f sv.offset_ rhs m iend 0
  if iend < sv.size_ then
    upd m1 (iend + sv.offset_) (f (m1 (iend + sv.offset_)) (rhs iend))
  else m1

/-- The streaming branch of the vectorized `assign` kernel (lines
1628-1635): `for( i=0; i<size(); i+=IT::size ) vector_.stream( offset_+i,
rhs.load(i) )`, a full non-temporal register store per iteration. -/
def streamLoop (sv : DenseSubvector) (W : Nat) (rhs : Nat → Int) (m : Mem) (i : Nat) : Mem :=
  if h : i < sv.size_ ∧ 0 < W then
    streamLoop sv W rhs (storeLanes m (sv.offset_ + i) (loadAt rhs i) 0 W) (i + W)
  else m
termination_by sv.size_ - i

/-- The 4-way software-pipelined loop of the vectorized kernels (assign
lines 1642-1647, addAssign 1736-1741, subAssign 1829-1834, multAssign
1922-1927): while `i < iend`, four consecutive full register stores
`vector_.storeu( offset_+i+k*IT::size, value )` where the stored register
`g m i` may read the current memory (the compound kernels load the target
via `load(i+k*IT::size)` before each store). -/
def vec4Loop (sv : DenseSubvector) (W : Nat) (g : Mem → Nat → Nat → Int) (m : Mem) (iend i : Nat) : Mem :=
  if h : i < iend ∧ 0 < W then
    let m1 := storeLanes m (sv.offset_ + i) (g m i) 0 W
    let m2 := storeLanes m1 (sv.offset_ + (i + W)) (g m1 (i + W)) 0 W
    let m3 := storeLanes m2 (sv.offset_ + (i + 2 * W)) (g m2 (i + 2 * W)) 0 W
    let m4 := storeLanes m3 (sv.offset_ + (i + 3 * W)) (g m3 (i + 3 * W)) 0 W
    vec4Loop sv W g m4 iend (i + 4 * W)
  else m
termination_by iend - i

/-- The remainder loop of the vectorized kernels (assign line 1648-1650,
addAssign 1742-1744, subAssign 1835-1837, multAssign 1928-1930):
`for( i=iend; i<size_; i+=IT::size ) storeu( i, value )` through the
subvector's own `storeu` (partial-register store at the unaligned tail). -/
def vecTailLoop (sv : DenseSubvector) (W : Nat) (g : Mem → Nat → Nat → Int) (m : Mem) (i : Nat) : Mem :=
  if h : i < sv.size_ ∧ 0 < W then
    vecTailLoop sv W g (svStoreu sv W m i (g m i)) (i + W)
  else m
termination_by sv.size_ - i

/-- Vectorized `assign( const DenseVector& rhs )` kernel (lines 1618-1652):
if `useStreaming && aligned_ && size_ > cacheSize/(sizeof(ElementType)*3)
&& !rhs.isAliased(&vector_)` the streaming loop, otherwise the 4-way loop
up to `iend = size_ & size_t(-IT::size*4)` (asserted equal to
`size_ - size_ % (IT::size*4)`) followed by the remainder loop.  The cache
threshold `cacheSize/(sizeof(ElementType)*3)` is the parameter `thr`;
`rhsAliased` is the result of `(~rhs).isAliased( &vector_ )`. -/
def svAssignDenseVectorized (sv : DenseSubvector) (W : Nat) (useStreaming : Bool)
    (thr : Nat) (rhsAliased : Bool) (m : Mem) (rhs : Nat → Int) : Mem :=
  if useStreaming && sv.aligned_ && decide (sv.size_ > thr) && !rhsAliased then
    streamLoop sv W rhs m 0
  else
    let iend := sv.size_ - sv.size_ % (4 * W)
    vecTailLoop sv W (fun _ i => loadAt rhs i)
      (vec4Loop sv W (fun _ i => loadAt rhs i) m iend 0) iend

/-- Vectorized compound-assignment kernel over a dense right-hand side:
`f = (+)` is `addAssign` (lines 1722-1745), `f = (-)` is `subAssign`
(lines 1815-1838), `f = (*)` is `multAssign` (lines 1908-1931).  Each
stored register combines the target register `load(i)` (the subvector's
`loadu`) with the source register `it.load()` lane-wise. -/
def svOpDenseVectorized (f : Int → Int → Int) (sv : DenseSubvector) (W : Nat)
    (m : Mem) (rhs : Nat → Int) : Mem :=
  let g : Mem → Nat → Nat → Int := fun mm i j => f (svLoadu sv mm i j) (rhs (i + j))
  let iend := sv.size_ - sv.size_ % (4 * W)
  vecTailLoop sv W g (vec4Loop sv W g m iend 0) iend

/-- A sparse right-hand side operand: its `size()` and the list of
`(index, value)` pairs traversed by the non-zero iterator. -/
abbrev SparseVec : Type := List (Nat × Int)

/-- Sparse `assign( const SparseVector& rhs )` kernel (lines 1667-1677):
`vector_[element->index()+offset_] = element->value()` per non-zero. -/
def svAssignSparse (sv : DenseSubvector) (m : Mem) (rhs : SparseVec) : Mem :=
  rhs.foldl (fun mm e => upd mm (e.1 + sv.offset_) e.2) m

/-- Sparse `addAssign` kernel (lines 1760-1769):
`vector_[element->index()+offset_] += element->value()`. -/
def svAddAssignSparse (sv : DenseSubvector) (m : Mem) (rhs : SparseVec) : Mem :=
  rhs.foldl (fun mm e => upd mm (e.1 + sv.offset_) (mm (e.1 + sv.offset_) + e.2)) m

/-- Sparse `subAssign` kernel (lines 1853-1862):
`vector_[element->index()+offset_] -= element->value()`. -/
def svSubAssignSparse (sv : DenseSubvector) (m : Mem) (rhs : SparseVec) : Mem :=
  rhs.foldl (fun mm e => upd mm (e.1 + sv.offset_) (mm (e.1 + sv.offset_) - e.2)) m

/-- Sparse `multAssign` kernel (lines 1946-1960): snapshot `const ResultType
tmp( *this )` of the current dense values, `reset()` the view, then for
each non-zero `vector_[element->index()+offset_] = tmp[element->index()] *
element->value()`. -/
def svMultAssignSparse (sv : DenseSubvector) (m : Mem) (rhs : SparseVec) : Mem :=
  let tmp : Nat → Int := fun i => m (sv.offset_ + i)
  let m1 := svReset sv m
  rhs.foldl (fun mm e => upd mm (e.1 + sv.offset_) (tmp e.1 * e.2)) m1

/-- The fields of the `DenseSubvector< DVecDVecCrossExpr<VT1,VT2>, false >`
specialization (lines 1985-2084): the wrapped cross-product expression is
held by value, plus `offset_` and `size_`. -/
structure CrossSubvector where
  offset_ : Nat
  size_ : Nat
deriving Repr, DecidableEq

/-- The constructor of the cross-product specialization (lines 2017-2021):
its initialiser list copies the expression and stores `offset_` and
`size_`; the body is empty — no bounds validation and no exception,
whatever `exprSize = vector.size()` is. -/
def mkCrossSubvector (exprSize index n : Nat) : Except String CrossSubvector :=
  Except.ok { offset_ := index, size_ := n }

/-- Embedding of `subvector( const DenseSubvector<VT,TF>& dv, size_t index, size_t size )`
(lines 2656-2664): builds `DenseSubvector<VT,TF>( dv.vector_, dv.offset_ +
index, size )` over the shared root parent `dv.vector_`. -/
def subvectorOfSub (dv : DenseSubvector) (ps W index n : Nat) : Except String DenseSubvector :=
  mkDenseSubvector dv.vector_ ps W (dv.offset_ + index) n

/-- Copy assignment `operator=( const DenseSubvector& rhs )` (lines
1076-1100).  `memR` is the storage of `rhs`'s parent; when the two views
share a parent the caller instantiates `memR = mem`.  The self-assignment
short-circuit compares parent identity and offset; then the size check;
then the operand is materialised into the temporary `ResultType tmp( ~rhs )`
when `rhs.canAlias( &vector_ )` holds, and `assign` dispatches on the
temporary, else `assign` reads the (distinct-parent, hence write-free)
source directly.  Both operand forms read the pre-assignment state, which
the pure snapshot `fun i => memR (rhs.offset_ + i)` expresses; the scalar
`assign` kernel is used here (theorem for C4 proves the vectorized kernel
produces the same parent state). -/
def svCopyAssign (target rhs : DenseSubvector) (mem memR : Mem) : Except String Mem :=
  if target.vector_ = rhs.vector_ ∧ target.offset_ = rhs.offset_ then
    Except.ok mem
  else if svSize target ≠ svSize rhs then
    Except.error "Subvector sizes do not match"
  else if svCanAlias rhs target.vector_ then
    let tmp : Nat → Int := fun i => memR (rhs.offset_ + i)
    Except.ok (svAssignDenseDefault target mem tmp)
  else
    Except.ok (svAssignDenseDefault target mem (fun i => memR (rhs.offset_ + i)))

/-- Embedding of `operator=( const Vector<VT2,TF>& rhs )` for a dense right-hand side
(lines 1114-1138): size check, then `canAlias` decides between the
temporary `VT2::ResultType tmp( ~rhs )` and direct assignment; either
operand reads the pre-assignment source state `fun i => memR (rhsOff + i)`
(`rhsOff` is 0 for a plain vector, the offset for a subvector source). -/
def svAssignVectorOp (target : DenseSubvector) (mem memR : Mem)
    (rhsOff rhsSize : Nat) (canAliasRes : Bool) : Except String Mem :=
  if svSize target ≠ rhsSize then
    Except.error "Vector sizes do not match"
  else if canAliasRes then
    let tmp : Nat → Int := fun i => memR (rhsOff + i)
    Except.ok (svAssignDenseDefault target mem tmp)
  else
    Except.ok (svAssignDenseDefault target mem (fun i => memR (rhsOff + i)))

/-- Embedding of `operator+=( const Vector<VT2,TF>& rhs )` (lines 1152-1174): size check
then `addAssign`, through a temporary when `canAlias` holds. -/
def svAddAssignOp (target : DenseSubvector) (mem memR : Mem)
    (rhsOff rhsSize : Nat) (canAliasRes : Bool) : Except String Mem :=
  if svSize target ≠ rhsSize then
    Except.error "Vector sizes do not match"
  else if canAliasRes then
    let tmp : Nat → Int := fun i => memR (rhsOff + i)
    Except.ok (svOpDenseDefault (· + ·) target mem tmp)
  else
    Except.ok (svOpDenseDefault (· + ·) target mem (fun i => memR (rhsOff + i)))

/-- Embedding of `operator-=( const Vector<VT2,TF>& rhs )` (lines 1188-1210): size check
then `subAssign`, through a temporary when `canAlias` holds. -/
def svSubAssignOp (target : DenseSubvector) (mem memR : Mem)
    (rhsOff rhsSize : Nat) (canAliasRes : Bool) : Except String Mem :=
  if svSize target ≠ rhsSize then
    Except.error "Vector sizes do not match"
  else if canAliasRes then
    let tmp : Nat → Int := fun i => memR (rhsOff + i)
    Except.ok (svOpDenseDefault (· - ·) target mem tmp)
  else
    Except.ok (svOpDenseDefault (· - ·) target mem (fun i => memR (rhsOff + i)))

/-- Embedding of `operator*=( const Vector<VT2,TF>& rhs )` for a dense right-hand side
(lines 1225-1247): size check then `multAssign`, through a temporary when
`canAlias` holds. -/
def svMultAssignOp (target : DenseSubvector) (mem memR : Mem)
    (rhsOff rhsSize : Nat) (canAliasRes : Bool) : Except String Mem :=
  if svSize target ≠ rhsSize then
    Except.error "Vector sizes do not match"
  else if canAliasRes then
    let tmp : Nat → Int := fun i => memR (rhsOff + i)
    Except.ok (svOpDenseDefault (· * ·) target mem tmp)
  else
    Except.ok (svOpDenseDefault (· * ·) target mem (fun i => memR (rhsOff + i)))

/-- Embedding of `operator*=( const Vector<VT2,TF>& rhs )` for a sparse right-hand side
(lines 1225-1247): size check; `IsSparseVector<VT2>::value` forces the
temporary `VT2::ResultType tmp( ~rhs )` (a copy of the same non-zero list),
then the sparse `multAssign` kernel runs on the temporary. -/
def svMultAssignSparseOp (target : DenseSubvector) (mem : Mem)
    (rhs : SparseVec) (rhsSize : Nat) : Except String Mem :=
  if svSize target ≠ rhsSize then
    Except.error "Vector sizes do not match"
  else
    Except.ok (svMultAssignSparse target mem rhs)

/-- Modelled from the spec (§8, aliasing correctness): the naive reference
implementation that first copies the source into an independent temporary
and then writes element-by-element into the target view. -/
def naiveCopyRef (target rhs : DenseSubvector) (mem memR : Mem) : Mem :=
  fun q =>
    if target.offset_ ≤ q ∧ q < target.offset_ + target.size_ then
      memR (rhs.offset_ + (q - target.offset_))
    else mem q

theorem upd_get (m : Mem) (i : Nat) (v : Int) (q : Nat) :
    upd m i v q = if q = i then v else m q := rfl

theorem storeLanes_get (g : Nat → Int) (p : Nat) :
    ∀ (c j : Nat) (m : Mem) (q : Nat),
      storeLanes m p g j c q =
        if p + j ≤ q ∧ q < p + j + c then g (q - p) else m q := by
  intro c
  induction c with
  | zero =>
      intro j m q
      simp only [storeLanes]
      rw [if_neg (by omega)]
  | succ c ih =>
      intro j m q
      simp only [storeLanes]
      rw [ih (j + 1) (upd m (p + j) (g j)) q]
      by_cases h1 : p + (j + 1) ≤ q ∧ q < p + (j + 1) + c
      · rw [if_pos h1, if_pos (by omega)]
      · rw [if_neg h1, upd_get]
        by_cases h2 : q = p + j
        · rw [if_pos h2, if_pos (by omega)]
          have hj : q - p = j := by omega
          rw [hj]
        · rw [if_neg h2, if_neg (by omega)]

theorem svFillLoop_get (v : Int) :
    ∀ (k i iend : Nat), iend - i ≤ k → ∀ (m : Mem) (q : Nat),
      svFillLoop m v i iend q = if i ≤ q ∧ q < iend then v else m q := by
  intro k
  induction k with
  | zero =>
      intro i iend hk m q
      rw [svFillLoop, dif_neg (by omega), if_neg (by omega)]
  | succ k ih =>
      intro i iend hk m q
      rw [svFillLoop]
      by_cases h : i < iend
      · rw [dif_pos h, ih (i + 1) iend (by omega), upd_get]
        by_cases h2 : i + 1 ≤ q ∧ q < iend
        · rw [if_pos h2, if_pos (by omega)]
        · rw [if_neg h2]
          by_cases h3 : q = i
          · rw [if_pos h3, if_pos (by omega)]
          · rw [if_neg h3, if_neg (by omega)]
      · rw [dif_neg h, if_neg (by omega)]

theorem svScaleLoop_get (s : Int) :
    ∀ (k i iend : Nat), iend - i ≤ k → ∀ (m : Mem) (q : Nat),
      svScaleLoop m s i iend q = if i ≤ q ∧ q < iend then m q * s else m q := by
  intro k
  induction k with
  | zero =>
      intro i iend hk m q
      rw [svScaleLoop, dif_neg (by omega), if_neg (by omega)]
  | succ k ih =>
      intro i iend hk m q
      rw [svScaleLoop]
      by_cases h : i < iend
      · rw [dif_pos h, ih (i + 1) iend (by omega)]
        by_cases h2 : i + 1 ≤ q ∧ q < iend
        · rw [if_pos h2, if_pos (by omega), upd_get, if_neg (by omega)]
        · rw [if_neg h2, upd_get]
          by_cases h3 : q = i
          · rw [if_pos h3, if_pos (by omega), h3]
          · rw [if_neg h3, if_neg (by omega)]
      · rw [dif_neg h, if_neg (by omega)]

theorem assignDefaultLoop_get (off : Nat) (rhs : Nat → Int) :
    ∀ (k i iend : Nat), iend - i ≤ k → (iend - i) % 2 = 0 → ∀ (m : Mem) (q : Nat),
      assignDefaultLoop off rhs m iend i q =
        if off + i ≤ q ∧ q < off + iend then rhs (q - off) else m q := by
  intro k
  induction k with
  | zero =>
      intro i iend hk hev m q
      rw [assignDefaultLoop, dif_neg (by omega), if_neg (by omega)]
  | succ k ih =>
      intro i iend hk hev m q
      rw [assignDefaultLoop]
      by_cases h : i < iend
      · rw [dif_pos h, ih (i + 2) iend (by omega) (by omega)]
        have h2 : i + 2 ≤ iend := by omega
        by_cases hq : off + (i + 2) ≤ q ∧ q < off + iend
        · rw [if_pos hq, if_pos (by omega)]
        · rw [if_neg hq, upd_get]
          by_cases hq1 : q = i + off + 1
          · rw [if_pos hq1, if_pos (by omega)]
            have : q - off = i + 1 := by omega
            rw [this]
          · rw [if_neg hq1, upd_get]
            by_cases hq0 : q = i + off
            · rw [if_pos hq0, if_pos (by omega)]
              have : q - off = i := by omega
              rw [this]
            · rw [if_neg hq0, if_neg (by omega)]
      · rw [dif_neg h, if_neg (by omega)]

theorem opDefaultLoop_frame (f : Int → Int → Int) (off : Nat) (rhs : Nat → Int) :
    ∀ (k i iend : Nat), iend - i ≤ k → (iend - i) % 2 = 0 → ∀ (m : Mem) (q : Nat),
      (q < off + i ∨ off + iend ≤ q) →
      opDefaultLoop f off rhs m iend i q = m q := by
  intro k
  induction k with
  | zero =>
      intro i iend hk hev m q hq
      rw [opDefaultLoop, dif_neg (by omega)]
  | succ k ih =>
      intro i iend hk hev m q hq
      rw [opDefaultLoop]
      by_cases h : i < iend
      · have h2 : i + 2 ≤ iend := by omega
        rw [dif_pos h, ih (i + 2) iend (by omega) (by omega) _ q (by omega)]
        rw [upd_get, if_neg (by omega), upd_get, if_neg (by omega)]
      · rw [dif_neg h]

theorem mult_lt_final (W i n : Nat) (hW : 0 < W) (hi : W ∣ i) (h : i < n) :
    i + W ≤ n ∨ (i = n - n % W ∧ n % W ≠ 0) := by
  obtain ⟨a, rfl⟩ := hi
  have hqr := Nat.div_add_mod n W
  have hr : n % W < W := Nat.mod_lt _ hW
  rcases Nat.lt_or_ge a (n / W) with hlt | hge
  · left
    have h2 : W * (a + 1) ≤ W * (n / W) := Nat.mul_le_mul_left W hlt
    rw [Nat.mul_succ] at h2
    omega
  · have h1 : W * (n / W) ≤ W * a := Nat.mul_le_mul_left W hge
    have h3 : a = n / W := by
      by_contra hne
      have h4 : n / W + 1 ≤ a := by omega
      have h5 : W * (n / W + 1) ≤ W * a := Nat.mul_le_mul_left W h4
      rw [Nat.mul_succ] at h5
      omega
    right
    subst h3
    omega

theorem dvd_sub_mod (n w : Nat) : w ∣ (n - n % w) := by
  have h := Nat.div_add_mod n w
  exact ⟨n / w, by omega⟩

theorem storeLanes_loadAt_get (rhs : Nat → Int) (off i W q : Nat) (m : Mem) :
    storeLanes m (off + i) (loadAt rhs i) 0 W q =
      if off + i ≤ q ∧ q < off + i + W then rhs (q - off) else m q := by
  rw [storeLanes_get]
  by_cases h : off + i + 0 ≤ q ∧ q < off + i + 0 + W
  · rw [if_pos h, if_pos (by omega)]
    unfold loadAt
    congr 1
    omega
  · rw [if_neg h, if_neg (by omega)]

theorem svStoreu_out (sv : DenseSubvector) (ps W : Nat) (hWF : svWF sv ps W) (hW : 0 < W)
    (m : Mem) (i : Nat) (g : Nat → Int) (hi : W ∣ i) (hlt : i < sv.size_) (q : Nat)
    (hq : q < ps) (hout : q < sv.offset_ + i ∨ sv.offset_ + sv.size_ ≤ q) :
    svStoreu sv W m i g q = m q := by
  obtain ⟨hle, hrest, hfin, hal⟩ := hWF
  unfold svStoreu
  split
  next hcond =>
    have hn : ¬ (sv.offset_ + i + 0 ≤ q ∧ q < sv.offset_ + i + 0 + W) := by
      rintro ⟨hq1, hq2⟩
      rcases mult_lt_final W i sv.size_ hW hi hlt with hfit | ⟨hifin, hnz⟩
      · omega
      · have ha : sv.aligned_ = true := by
          simp only [Bool.or_eq_true, decide_eq_true_eq] at hcond
          rcases hcond with ha | hne
          · exact ha
          · exact absurd (by omega) hne
        rcases (hal.mp ha).2 with hend | hz
        · omega
        · exact hnz hz
    rw [storeLanes_get, if_neg hn]
  next hcond =>
    simp only [Bool.or_eq_true, decide_eq_true_eq, not_or, Bool.not_eq_true, not_not] at hcond
    obtain ⟨ha, hie⟩ := hcond
    have hmlt : sv.size_ % W ≤ sv.size_ := Nat.mod_le _ _
    rw [storeLanes_get, if_neg (by omega)]

theorem svStoreu_get_in (sv : DenseSubvector) (ps W : Nat) (hWF : svWF sv ps W)
    (m : Mem) (i : Nat) (g : Nat → Int) (q : Nat)
    (h1 : sv.offset_ + i ≤ q) (h2 : q < sv.offset_ + i + W) (h3 : q < sv.offset_ + sv.size_) :
    svStoreu sv W m i g q = g (q - (sv.offset_ + i)) := by
  obtain ⟨hle, hrest, hfin, hal⟩ := hWF
  unfold svStoreu
  split
  next hcond => rw [storeLanes_get, if_pos (by omega)]
  next hcond =>
    simp only [Bool.or_eq_true, decide_eq_true_eq, not_or, Bool.not_eq_true, not_not] at hcond
    obtain ⟨ha, hie⟩ := hcond
    have hmlt : sv.size_ % W ≤ sv.size_ := Nat.mod_le _ _
    rw [storeLanes_get, if_pos (by omega)]

theorem vecTailLoop_frame (sv : DenseSubvector) (ps W : Nat) (g : Mem → Nat → Nat → Int)
    (hWF : svWF sv ps W) (hW : 0 < W) :
    ∀ (k i : Nat), sv.size_ - i ≤ k → W ∣ i → ∀ (m : Mem) (q : Nat), q < ps →
      (q < sv.offset_ + i ∨ sv.offset_ + sv.size_ ≤ q) →
      vecTailLoop sv W g m i q = m q := by
  intro k
  induction k with
  | zero =>
      intro i hk hi m q hq hout
      rw [vecTailLoop, dif_neg (by omega)]
  | succ k ih =>
      intro i hk hi m q hq hout
      rw [vecTailLoop]
      by_cases h : i < sv.size_
      · rw [dif_pos ⟨h, hW⟩,
            ih (i + W) (by omega) (Nat.dvd_add hi dvd_rfl) _ q hq (by omega)]
        exact svStoreu_out sv ps W hWF hW m i (g m i) hi h q hq hout
      · rw [dif_neg (by omega)]

theorem vecTailLoop_assign_get (sv : DenseSubvector) (ps W : Nat) (rhs : Nat → Int)
    (hWF : svWF sv ps W) (hW : 0 < W) :
    ∀ (k i : Nat), sv.size_ - i ≤ k → W ∣ i → ∀ (m : Mem) (q : Nat), q < ps →
      vecTailLoop sv W (fun _ i2 => loadAt rhs i2) m i q =
        if sv.offset_ + i ≤ q ∧ q < sv.offset_ + sv.size_ then rhs (q - sv.offset_)
        else m q := by
  intro k
  induction k with
  | zero =>
      intro i hk hi m q hq
      rw [vecTailLoop, dif_neg (by omega), if_neg (by omega)]
  | succ k ih =>
      intro i hk hi m q hq
      rw [vecTailLoop]
      by_cases h : i < sv.size_
      · rw [dif_pos ⟨h, hW⟩,
            ih (i + W) (by omega) (Nat.dvd_add hi dvd_rfl) _ q hq]
        by_cases h2 : sv.offset_ + (i + W) ≤ q ∧ q < sv.offset_ + sv.size_
        · rw [if_pos h2, if_pos (by omega)]
        · rw [if_neg h2]
          by_cases h3 : sv.offset_ + i ≤ q ∧ q < sv.offset_ + sv.size_
          · rw [if_pos h3]
            rw [svStoreu_get_in sv ps W hWF m i _ q h3.1 (by omega) h3.2]
            show loadAt rhs i (q - (sv.offset_ + i)) = rhs (q - sv.offset_)
            unfold loadAt
            congr 1
            omega
          · rw [if_neg h3]
            exact svStoreu_out sv ps W hWF hW m i _ hi h q hq (by omega)
      · rw [dif_neg (by omega), if_neg (by omega)]

theorem streamLoop_get (sv : DenseSubvector) (ps W : Nat) (rhs : Nat → Int)
    (hWF : svWF sv ps W) (hW : 0 < W) (ha : sv.aligned_ = true) :
    ∀ (k i : Nat), sv.size_ - i ≤ k → W ∣ i → ∀ (m : Mem) (q : Nat), q < ps →
      streamLoop sv W rhs m i q =
        if sv.offset_ + i ≤ q ∧ q < sv.offset_ + sv.size_ then rhs (q - sv.offset_)
        else m q := by
  intro k
  induction k with
  | zero =>
      intro i hk hi m q hq
      rw [streamLoop, dif_neg (by omega), if_neg (by omega)]
  | succ k ih =>
      intro i hk hi m q hq
      rw [streamLoop]
      by_cases h : i < sv.size_
      · rw [dif_pos ⟨h, hW⟩,
            ih (i + W) (by omega) (Nat.dvd_add hi dvd_rfl) _ q hq,
            storeLanes_loadAt_get]
        have hover : sv.offset_ + i + W ≤ sv.offset_ + sv.size_ ∨
            sv.offset_ + sv.size_ = ps := by
          obtain ⟨hle, hrest, hfin, hal⟩ := hWF
          rcases mult_lt_final W i sv.size_ hW hi h with hfit | ⟨hifin, hnz⟩
          · left; omega
          · rcases (hal.mp ha).2 with hend | hz
            · right; exact hend
            · exact absurd hz hnz
        split_ifs <;> first | rfl | omega
      · rw [dif_neg (by omega), if_neg (by omega)]

theorem vec4Loop_frame (sv : DenseSubvector) (W : Nat) (g : Mem → Nat → Nat → Int)
    (hW : 0 < W) :
    ∀ (k i iend : Nat), iend - i ≤ k → (4 * W) ∣ (iend - i) → ∀ (m : Mem) (q : Nat),
      (q < sv.offset_ + i ∨ sv.offset_ + iend ≤ q) →
      vec4Loop sv W g m iend i q = m q := by
  intro k
  induction k with
  | zero =>
      intro i iend hk hd m q hq
      rw [vec4Loop, dif_neg (by omega)]
  | succ k ih =>
      intro i iend hk hd m q hq
      rw [vec4Loop]
      by_cases h : i < iend
      · have h4 : i + 4 * W ≤ iend := by
          have h5 := Nat.le_of_dvd (by omega) hd
          omega
        have hd2 : (4 * W) ∣ (iend - (i + 4 * W)) := by
          have he : iend - (i + 4 * W) = (iend - i) - 4 * W := by omega
          rw [he]
          exact Nat.dvd_sub' hd dvd_rfl
        rw [dif_pos ⟨h, hW⟩]
        rw [ih (i + 4 * W) iend (by omega) hd2 _ q (by omega)]
        rw [storeLanes_get, if_neg (by omega), storeLanes_get, if_neg (by omega),
            storeLanes_get, if_neg (by omega), storeLanes_get, if_neg (by omega)]
      · rw [dif_neg (by omega)]

theorem vec4Loop_assign_get (sv : DenseSubvector) (W : Nat) (rhs : Nat → Int)
    (hW : 0 < W) :
    ∀ (k i iend : Nat), iend - i ≤ k → (4 * W) ∣ (iend - i) → ∀ (m : Mem) (q : Nat),
      vec4Loop sv W (fun _ i2 => loadAt rhs i2) m iend i q =
        if sv.offset_ + i ≤ q ∧ q < sv.offset_ + iend then rhs (q - sv.offset_)
        else m q := by
  intro k
  induction k with
  | zero =>
      intro i iend hk hd m q
      rw [vec4Loop, dif_neg (by omega), if_neg (by omega)]
  | succ k ih =>
      intro i iend hk hd m q
      rw [vec4Loop]
      by_cases h : i < iend
      · have h4 : i + 4 * W ≤ iend := by
          have h5 := Nat.le_of_dvd (by omega) hd
          omega
        have hd2 : (4 * W) ∣ (iend - (i + 4 * W)) := by
          have he : iend - (i + 4 * W) = (iend - i) - 4 * W := by omega
          rw [he]
          exact Nat.dvd_sub' hd dvd_rfl
        rw [dif_pos ⟨h, hW⟩]
        simp only [ih (i + 4 * W) iend (by omega) hd2, storeLanes_loadAt_get]
        split_ifs <;> first | rfl | omega
      · rw [dif_neg (by omega), if_neg (by omega)]

theorem svAssignDenseDefault_get (sv : DenseSubvector) (m : Mem) (rhs : Nat → Int)
    (q : Nat) :
    svAssignDenseDefault sv m rhs q =
      if sv.offset_ ≤ q ∧ q < sv.offset_ + sv.size_ then rhs (q - sv.offset_)
      else m q := by
  unfold svAssignDenseDefault
  by_cases h : sv.size_ - sv.size_ % 2 < sv.size_
  · rw [if_pos h, upd_get]
    by_cases h2 : q = sv.size_ - sv.size_ % 2 + sv.offset_
    · rw [if_pos h2, if_pos (by omega)]
      congr 1
      omega
    · rw [if_neg h2,
          assignDefaultLoop_get sv.offset_ rhs (sv.size_ - sv.size_ % 2) 0
            (sv.size_ - sv.size_ % 2) (by omega) (by omega) m q]
      split_ifs <;> first | rfl | omega
  · rw [if_neg h,
        assignDefaultLoop_get sv.offset_ rhs (sv.size_ - sv.size_ % 2) 0
          (sv.size_ - sv.size_ % 2) (by omega) (by omega) m q]
    split_ifs <;> first | rfl | omega

theorem svAssignDenseVectorized_get (sv : DenseSubvector) (ps W : Nat) (us al : Bool)
    (thr : Nat) (m : Mem) (rhs : Nat → Int) (hWF : svWF sv ps W) (hW : 0 < W)
    (q : Nat) (hq : q < ps) :
    svAssignDenseVectorized sv W us thr al m rhs q =
      if sv.offset_ ≤ q ∧ q < sv.offset_ + sv.size_ then rhs (q - sv.offset_)
      else m q := by
  unfold svAssignDenseVectorized
  split
  next hc =>
    have ha : sv.aligned_ = true := by
      simp only [Bool.and_eq_true] at hc
      exact hc.1.1.2
    rw [streamLoop_get sv ps W rhs hWF hW ha sv.size_ 0 (by omega) (Nat.dvd_zero W) m q hq]
    simp only [Nat.add_zero]
  next hc =>
    have hd : (4 * W) ∣ (sv.size_ - sv.size_ % (4 * W) - 0) := by
      simp only [Nat.sub_zero]
      exact dvd_sub_mod _ _
    have hdW : W ∣ (sv.size_ - sv.size_ % (4 * W)) :=
      dvd_trans (dvd_mul_left W 4) (dvd_sub_mod _ _)
    have hmle : sv.size_ % (4 * W) ≤ sv.size_ := Nat.mod_le _ _
    rw [vecTailLoop_assign_get sv ps W rhs hWF hW sv.size_
          (sv.size_ - sv.size_ % (4 * W)) (by omega) hdW _ q hq,
        vec4Loop_assign_get sv W rhs hW (sv.size_ - sv.size_ % (4 * W)) 0
          (sv.size_ - sv.size_ % (4 * W)) (by omega) hd m q]
    split_ifs <;> first | rfl | omega

theorem svOpDenseDefault_frame (f : Int → Int → Int) (sv : DenseSubvector) (m : Mem)
    (rhs : Nat → Int) (q : Nat)
    (hout : q < sv.offset_ ∨ sv.offset_ + sv.size_ ≤ q) :
    svOpDenseDefault f sv m rhs q = m q := by
  unfold svOpDenseDefault
  by_cases h : sv.size_ - sv.size_ % 2 < sv.size_
  · rw [if_pos h, upd_get, if_neg (by omega),
        opDefaultLoop_frame f sv.offset_ rhs (sv.size_ - sv.size_ % 2) 0
          (sv.size_ - sv.size_ % 2) (by omega) (by omega) m q (by omega)]
  · rw [if_neg h,
        opDefaultLoop_frame f sv.offset_ rhs (sv.size_ - sv.size_ % 2) 0
          (sv.size_ - sv.size_ % 2) (by omega) (by omega) m q (by omega)]

theorem svOpDenseVectorized_frame (f : Int → Int → Int) (sv : DenseSubvector)
    (ps W : Nat) (hWF : svWF sv ps W) (hW : 0 < W) (m : Mem) (rhs : Nat → Int)
    (q : Nat) (hq : q < ps)
    (hout : q < sv.offset_ ∨ sv.offset_ + sv.size_ ≤ q) :
    svOpDenseVectorized f sv W m rhs q = m q := by
  have hmle : sv.size_ % (4 * W) ≤ sv.size_ := Nat.mod_le _ _
  have hdW : W ∣ (sv.size_ - sv.size_ % (4 * W)) :=
    dvd_trans (dvd_mul_left W 4) (dvd_sub_mod _ _)
  unfold svOpDenseVectorized
  rw [vecTailLoop_frame sv ps W _ hWF hW sv.size_ (sv.size_ - sv.size_ % (4 * W))
        (by omega) hdW _ q hq (by omega),
      vec4Loop_frame sv W _ hW (sv.size_ - sv.size_ % (4 * W)) 0
        (sv.size_ - sv.size_ % (4 * W)) (by omega)
        (by simpa using dvd_sub_mod sv.size_ (4 * W)) m q (by omega)]

theorem sparseFold_frame (off n : Nat) (val : Mem → Nat × Int → Int) :
    ∀ (l : SparseVec) (m : Mem) (q : Nat), (∀ e ∈ l, e.1 < n) →
      (q < off ∨ off + n ≤ q) →
      List.foldl (fun mm e => upd mm (e.1 + off) (val mm e)) m l q = m q := by
  intro l
  induction l with
  | nil => intro m q hb hq; rfl
  | cons e t ih =>
      intro m q hb hq
      show List.foldl _ (upd m (e.1 + off) (val m e)) t q = m q
      rw [ih _ q (fun x hx => hb x (List.mem_cons_of_mem e hx)) hq, upd_get,
          if_neg (by have := hb e (List.mem_cons_self e t); omega)]

theorem lookup_none_of_not_mem (k : Nat) :
    ∀ (l : SparseVec), k ∉ l.map Prod.fst → List.lookup k l = none := by
  intro l
  induction l with
  | nil => intro h; rfl
  | cons e t ih =>
      obtain ⟨a, v⟩ := e
      intro h
      simp only [List.map_cons, List.mem_cons, not_or] at h
      have hne : (k == a) = false := by
        simp only [beq_eq_false_iff_ne, ne_eq]
        exact h.1
      simp [List.lookup, hne, ih h.2]

theorem sparseFold_set_get (off : Nat) (tmp : Nat → Int) :
    ∀ (l : SparseVec) (m : Mem) (k : Nat), (l.map Prod.fst).Nodup →
      List.foldl (fun mm e => upd mm (e.1 + off) (tmp e.1 * e.2)) m l (off + k) =
        (List.lookup k l).elim (m (off + k)) (fun v => tmp k * v) := by
  intro l
  induction l with
  | nil => intro m k hnd; rfl
  | cons e t ih =>
      obtain ⟨a, v⟩ := e
      intro m k hnd
      simp only [List.map_cons, List.nodup_cons] at hnd
      show List.foldl _ (upd m (a + off) (tmp a * v)) t (off + k) = _
      rw [ih _ k hnd.2]
      by_cases hk : k = a
      · subst hk
        have hlk : List.lookup k ((k, v) :: t) = some v := by simp [List.lookup]
        rw [lookup_none_of_not_mem k t hnd.1, hlk]
        simp only [Option.elim_none, Option.elim_some]
        rw [upd_get, if_pos (by omega)]
      · have hne : (k == a) = false := by
          simp only [beq_eq_false_iff_ne, ne_eq]
          exact hk
        have hlk : List.lookup k ((a, v) :: t) = List.lookup k t := by
          simp [List.lookup, hne]
        rw [hlk]
        cases hcase : List.lookup k t with
        | none =>
            simp only [Option.elim_none]
            rw [upd_get, if_neg (by omega)]
        | some v2 => simp only [Option.elim_some]

theorem svMultAssignSparse_get (sv : DenseSubvector) (m : Mem) (rhs : SparseVec)
    (hnd : (rhs.map Prod.fst).Nodup) (k : Nat) (hk : k < sv.size_) :
    svMultAssignSparse sv m rhs (sv.offset_ + k) =
      (List.lookup k rhs).elim 0 (fun v => m (sv.offset_ + k) * v) := by
  have hres : svReset sv m (sv.offset_ + k) = 0 := by
    unfold svReset
    rw [svFillLoop_get 0 sv.size_ sv.offset_ (sv.offset_ + sv.size_) (by omega),
        if_pos (by omega)]
  have h := sparseFold_set_get sv.offset_ (fun i => m (sv.offset_ + i)) rhs
    (svReset sv m) k hnd
  rw [hres] at h
  exact h

/-- C1: for every parent dense vector and every `(offset, length)` with
`offset + length <= parent.size()`, the constructed subvector view has
`view.size() == length`, reading `view[i]` returns the value of
`parent[offset+i]`, and a write through `view[i]` updates exactly
`parent[offset+i]`. -/
theorem spec_c1_view_size_and_access (vecId ps W index n : Nat)
    (h : index + n ≤ ps) :
    ∃ sv : DenseSubvector,
      mkDenseSubvector vecId ps W index n = Except.ok sv ∧
      svSize sv = n ∧
      (∀ (m : Mem) (i : Nat), i < n → svGet sv m i = m (index + i)) ∧
      (∀ (m : Mem) (i : Nat) (v : Int), i < n →
        svSet sv m i v = upd m (index + i) v) := by
  refine ⟨{ vector_ := vecId, offset_ := index, size_ := n, rest_ := n % W,
            final_ := n - n % W,
            aligned_ := decide (index % W = 0) &&
              (decide (index + n = ps) || decide (n % W = 0)) },
          ?_, rfl, fun m i hi => rfl, fun m i v hi => rfl⟩
  unfold mkDenseSubvector
  rw [if_neg (by omega)]

theorem spec_c1_witness :
    3 + 4 ≤ 10 ∧
    ∃ sv : DenseSubvector,
      mkDenseSubvector 7 10 2 3 4 = Except.ok sv ∧
      svSize sv = 4 ∧
      (∀ (m : Mem) (i : Nat), i < 4 → svGet sv m i = m (3 + i)) ∧
      (∀ (m : Mem) (i : Nat) (v : Int), i < 4 → svSet sv m i v = upd m (3 + i) v) :=
  ⟨by decide, spec_c1_view_size_and_access 7 10 2 3 4 (by decide)⟩

/-- C2 counterexample: the claim states that construction with
`offset + length > parent.size()` fails at construction for every kind of
parent the view can be built over.  The cross-product-expression
specialization's constructor (DenseSubvector.h lines 2017-2021) performs no
bounds validation: over a cross-product expression of size 3, a subvector
with offset 5, length 10 (offset + length = 15 > 3) is constructed
successfully and no error is reported. -/
theorem spec_c2_counterexample :
    5 + 10 > 3 ∧
    mkCrossSubvector 3 5 10 = Except.ok { offset_ := 5, size_ := 10 } :=
  ⟨by decide, rfl⟩

/-- C2 (amended): for the generic `DenseSubvector` over a plain dense-vector
parent, construction with `offset + length > parent.size()` always fails
immediately with the range error `std::invalid_argument` (never deferred,
never clamped), for any parent size; the specialized views over
cross-product expressions perform no construction-time bounds check. -/
theorem spec_c2_range_error_generic_parent (vecId ps W index n : Nat) :
    (index + n > ps →
      mkDenseSubvector vecId ps W index n =
        Except.error "Invalid subvector specification") ∧
    (index + n ≤ ps →
      ∃ sv, mkDenseSubvector vecId ps W index n = Except.ok sv ∧
        sv.offset_ = index ∧ sv.size_ = n) := by
  constructor
  · intro h
    unfold mkDenseSubvector
    rw [if_pos (by omega)]
  · intro h
    refine ⟨{ vector_ := vecId, offset_ := index, size_ := n, rest_ := n % W,
              final_ := n - n % W,
              aligned_ := decide (index % W = 0) &&
                (decide (index + n = ps) || decide (n % W = 0)) },
            ?_, rfl, rfl⟩
    unfold mkDenseSubvector
    rw [if_neg (by omega)]

theorem spec_c2_witness :
    5 + 10 > 3 ∧
    mkDenseSubvector 7 3 2 5 10 = Except.error "Invalid subvector specification" :=
  ⟨by decide, (spec_c2_range_error_generic_parent 7 3 2 5 10).1 (by decide)⟩

/-- C6: the cached alignment flag of a constructed view is true if and only
if `offset % W == 0 && (offset + length == parentSize || length % W == 0)`;
for `W = 1` it is trivially true. -/
theorem spec_c6_aligned_flag (vecId ps W index n : Nat) (sv : DenseSubvector)
    (h : mkDenseSubvector vecId ps W index n = Except.ok sv) :
    (sv.aligned_ = true ↔ (index % W = 0 ∧ (index + n = ps ∨ n % W = 0))) ∧
    (W = 1 → sv.aligned_ = true) := by
  unfold mkDenseSubvector at h
  by_cases hb : index + n > ps
  · rw [if_pos hb] at h
    exact Except.noConfusion h
  · rw [if_neg hb] at h
    injection h with h2
    subst h2
    constructor
    · simp only [Bool.and_eq_true, Bool.or_eq_true, decide_eq_true_eq]
    · intro hW1
      subst hW1
      simp only [Bool.and_eq_true, Bool.or_eq_true, decide_eq_true_eq]
      omega

theorem spec_c6_witness :
    mkDenseSubvector 7 10 2 4 6 =
      Except.ok (⟨7, 4, 6, 0, 6, true⟩ : DenseSubvector) ∧
    ((DenseSubvector.aligned_ ⟨7, 4, 6, 0, 6, true⟩ = true ↔
        (4 % 2 = 0 ∧ (4 + 6 = 10 ∨ 6 % 2 = 0))) ∧
      (2 = 1 → DenseSubvector.aligned_ ⟨7, 4, 6, 0, 6, true⟩ = true)) :=
  ⟨by rfl, spec_c6_aligned_flag 7 10 2 4 6 ⟨7, 4, 6, 0, 6, true⟩ (by rfl)⟩

/-- C8: creating a subvector of an existing subvector view yields a view
over the same root parent (not over the outer view), with offset
`outer.offset + index`, length `size`, and the composed bound re-validated
against the root parent's size, raising the range error when exceeded. -/
theorem spec_c8_nested_view_composition (dv : DenseSubvector) (ps W index n : Nat) :
    (dv.offset_ + index + n ≤ ps →
      ∃ sv, subvectorOfSub dv ps W index n = Except.ok sv ∧
        sv.vector_ = dv.vector_ ∧ sv.offset_ = dv.offset_ + index ∧
        svSize sv = n) ∧
    (dv.offset_ + index + n > ps →
      subvectorOfSub dv ps W index n =
        Except.error "Invalid subvector specification") := by
  constructor
  · intro h
    refine ⟨{ vector_ := dv.vector_, offset_ := dv.offset_ + index, size_ := n,
              rest_ := n % W, final_ := n - n % W,
              aligned_ := decide ((dv.offset_ + index) % W = 0) &&
                (decide (dv.offset_ + index + n = ps) || decide (n % W = 0)) },
            ?_, rfl, rfl, rfl⟩
    unfold subvectorOfSub mkDenseSubvector
    rw [if_neg (by omega)]
  · intro h
    unfold subvectorOfSub mkDenseSubvector
    rw [if_pos (by omega)]

theorem spec_c8_witness :
    2 + 1 + 4 ≤ 10 ∧
    (∃ sv, subvectorOfSub ⟨7, 2, 6, 0, 6, true⟩ 10 2 1 4 = Except.ok sv ∧
      sv.vector_ = DenseSubvector.vector_ ⟨7, 2, 6, 0, 6, true⟩ ∧
      sv.offset_ = DenseSubvector.offset_ ⟨7, 2, 6, 0, 6, true⟩ + 1 ∧
      svSize sv = 4) :=
  ⟨by decide, (spec_c8_nested_view_composition ⟨7, 2, 6, 0, 6, true⟩ 10 2 1 4).1 (by decide)⟩

/-- C9: copy assignment from a source subvector with the same parent
identity and the same offset (in particular `v = v`) short-circuits and is
a no-op: the parent memory is returned unchanged. -/
theorem spec_c9_self_assignment_noop (target rhs : DenseSubvector) (mem : Mem)
    (hpar : target.vector_ = rhs.vector_) (hoff : target.offset_ = rhs.offset_) :
    svCopyAssign target rhs mem mem = Except.ok mem := by
  unfold svCopyAssign
  rw [if_pos ⟨hpar, hoff⟩]

theorem spec_c9_witness :
    DenseSubvector.vector_ ⟨7, 2, 6, 0, 6, true⟩ =
      DenseSubvector.vector_ ⟨7, 2, 6, 2, 4, false⟩ ∧
    DenseSubvector.offset_ ⟨7, 2, 6, 0, 6, true⟩ =
      DenseSubvector.offset_ ⟨7, 2, 6, 2, 4, false⟩ ∧
    svCopyAssign ⟨7, 2, 6, 0, 6, true⟩ ⟨7, 2, 6, 2, 4, false⟩
        ((fun q => (q : Int)) : Mem) ((fun q => (q : Int)) : Mem) =
      Except.ok ((fun q => (q : Int)) : Mem) :=
  ⟨rfl, rfl,
    spec_c9_self_assignment_noop ⟨7, 2, 6, 0, 6, true⟩ ⟨7, 2, 6, 2, 4, false⟩
      ((fun q => (q : Int)) : Mem) rfl rfl⟩

/-- C7: every assignment operator (=, +=, -=, *=, for a dense or sparse
source) whose source size differs from the view's length signals the
size-mismatch `std::invalid_argument` before any element is written; the
error is returned without producing any new parent state, so the target
view and its parent are left unmodified.  The copy-assignment operator
raises its own message when the views are distinct. -/
theorem spec_c7_size_mismatch_errors (target rhs2 : DenseSubvector)
    (mem memR : Mem) (rhsOff rhsSize : Nat) (ca : Bool) (sp : SparseVec)
    (h : svSize target ≠ rhsSize)
    (hns : ¬(target.vector_ = rhs2.vector_ ∧ target.offset_ = rhs2.offset_))
    (h2 : svSize target ≠ svSize rhs2) :
    svAssignVectorOp target mem memR rhsOff rhsSize ca =
        Except.error "Vector sizes do not match" ∧
    svAddAssignOp target mem memR rhsOff rhsSize ca =
        Except.error "Vector sizes do not match" ∧
    svSubAssignOp target mem memR rhsOff rhsSize ca =
        Except.error "Vector sizes do not match" ∧
    svMultAssignOp target mem memR rhsOff rhsSize ca =
        Except.error "Vector sizes do not match" ∧
    svMultAssignSparseOp target mem sp rhsSize =
        Except.error "Vector sizes do not match" ∧
    svCopyAssign target rhs2 mem memR =
        Except.error "Subvector sizes do not match" := by
  refine ⟨?_, ?_, ?_, ?_, ?_, ?_⟩
  · unfold svAssignVectorOp
    rw [if_pos h]
  · unfold svAddAssignOp
    rw [if_pos h]
  · unfold svSubAssignOp
    rw [if_pos h]
  · unfold svMultAssignOp
    rw [if_pos h]
  · unfold svMultAssignSparseOp
    rw [if_pos h]
  · unfold svCopyAssign
    rw [if_neg hns, if_pos h2]

theorem spec_c7_witness :
    svSize (⟨7, 2, 6, 0, 6, true⟩ : DenseSubvector) ≠ 4 ∧
    ¬(DenseSubvector.vector_ ⟨7, 2, 6, 0, 6, true⟩ =
        DenseSubvector.vector_ ⟨9, 0, 4, 0, 4, true⟩ ∧
      DenseSubvector.offset_ ⟨7, 2, 6, 0, 6, true⟩ =
        DenseSubvector.offset_ ⟨9, 0, 4, 0, 4, true⟩) ∧
    svSize (⟨7, 2, 6, 0, 6, true⟩ : DenseSubvector) ≠
      svSize (⟨9, 0, 4, 0, 4, true⟩ : DenseSubvector) ∧
    (svAssignVectorOp ⟨7, 2, 6, 0, 6, true⟩ ((fun _ => 0) : Mem)
        ((fun _ => 0) : Mem) 0 4 false =
        Except.error "Vector sizes do not match" ∧
      svAddAssignOp ⟨7, 2, 6, 0, 6, true⟩ ((fun _ => 0) : Mem)
        ((fun _ => 0) : Mem) 0 4 false =
        Except.error "Vector sizes do not match" ∧
      svSubAssignOp ⟨7, 2, 6, 0, 6, true⟩ ((fun _ => 0) : Mem)
        ((fun _ => 0) : Mem) 0 4 false =
        Except.error "Vector sizes do not match" ∧
      svMultAssignOp ⟨7, 2, 6, 0, 6, true⟩ ((fun _ => 0) : Mem)
        ((fun _ => 0) : Mem) 0 4 false =
        Except.error "Vector sizes do not match" ∧
      svMultAssignSparseOp ⟨7, 2, 6, 0, 6, true⟩ ((fun _ => 0) : Mem) [] 4 =
        Except.error "Vector sizes do not match" ∧
      svCopyAssign ⟨7, 2, 6, 0, 6, true⟩ ⟨9, 0, 4, 0, 4, true⟩
          ((fun _ => 0) : Mem) ((fun _ => 0) : Mem) =
        Except.error "Subvector sizes do not match") :=
  ⟨by decide, by decide, by decide,
    spec_c7_size_mismatch_errors ⟨7, 2, 6, 0, 6, true⟩ ⟨9, 0, 4, 0, 4, true⟩
      ((fun _ => 0) : Mem) ((fun _ => 0) : Mem) 0 4 false []
      (by decide) (by decide) (by decide)⟩

/-- C3: assignment into a subvector view from a source whose `canAlias`
check against the target's parent returns true (an overlapping subvector of
the same parent) first materialises the source into a temporary, so the
resulting parent state equals the copy-the-source-first naive reference
implementation; when `canAlias` is false (distinct parents) the source is
read directly with the same element-wise result.  `memR` is the source
parent's storage, equal to `mem` whenever the parents coincide. -/
theorem spec_c3_aliasing_materialization (target rhs : DenseSubvector)
    (mem memR : Mem) (hsz : svSize target = svSize rhs)
    (hmem : target.vector_ = rhs.vector_ → memR = mem) :
    ∃ mres, svCopyAssign target rhs mem memR = Except.ok mres ∧
      ∀ q, mres q = naiveCopyRef target rhs mem memR q := by
  unfold svCopyAssign
  by_cases hsc : target.vector_ = rhs.vector_ ∧ target.offset_ = rhs.offset_
  · rw [if_pos hsc]
    refine ⟨mem, rfl, fun q => ?_⟩
    unfold naiveCopyRef
    have hm := hmem hsc.1
    subst hm
    by_cases hq : target.offset_ ≤ q ∧ q < target.offset_ + target.size_
    · rw [if_pos hq]
      have he : rhs.offset_ + (q - target.offset_) = q := by
        have := hsc.2
        omega
      rw [he]
    · rw [if_neg hq]
  · rw [if_neg hsc, if_neg (not_not_intro hsz)]
    have key : ∀ q,
        svAssignDenseDefault target mem (fun i => memR (rhs.offset_ + i)) q =
          naiveCopyRef target rhs mem memR q := by
      intro q
      unfold naiveCopyRef
      rw [svAssignDenseDefault_get]
    by_cases hca : svCanAlias rhs target.vector_ = true
    · rw [if_pos hca]
      exact ⟨_, rfl, key⟩
    · rw [if_neg hca]
      exact ⟨_, rfl, key⟩

theorem spec_c3_witness :
    svSize (⟨1, 0, 5, 1, 4, false⟩ : DenseSubvector) =
      svSize (⟨1, 2, 5, 1, 4, false⟩ : DenseSubvector) ∧
    ∃ mres, svCopyAssign ⟨1, 0, 5, 1, 4, false⟩ ⟨1, 2, 5, 1, 4, false⟩
        ((fun q => (q : Int)) : Mem) ((fun q => (q : Int)) : Mem) =
        Except.ok mres ∧
      ∀ q, mres q = naiveCopyRef ⟨1, 0, 5, 1, 4, false⟩ ⟨1, 2, 5, 1, 4, false⟩
        ((fun q => (q : Int)) : Mem) ((fun q => (q : Int)) : Mem) q :=
  ⟨by decide,
    spec_c3_aliasing_materialization ⟨1, 0, 5, 1, 4, false⟩ ⟨1, 2, 5, 1, 4, false⟩
      ((fun q => (q : Int)) : Mem) ((fun q => (q : Int)) : Mem)
      (by decide) (fun _ => rfl)⟩

/-- C4: for a non-aliased dense source (a pure function of the
pre-assignment state) of the view's length, the scalar unrolled-by-2
`assign` kernel and the intrinsic-vectorized `assign` kernel (for any
streaming switch, cache threshold and aliasing flag, covering the streaming
branch, the 4-way loop and the partial-register tail) produce the same
final parent state on every element below the parent's size, and reading
the view back reproduces the source element-wise. -/
theorem spec_c4_assign_path_equivalence (sv : DenseSubvector) (ps W : Nat)
    (us al : Bool) (thr : Nat) (m : Mem) (rhs : Nat → Int)
    (hWF : svWF sv ps W) (hW : 0 < W) :
    (∀ q, q < ps →
      svAssignDenseVectorized sv W us thr al m rhs q =
        svAssignDenseDefault sv m rhs q) ∧
    (∀ k, k < sv.size_ →
      svAssignDenseVectorized sv W us thr al m rhs (sv.offset_ + k) = rhs k) := by
  constructor
  · intro q hq
    rw [svAssignDenseVectorized_get sv ps W us al thr m rhs hWF hW q hq,
        svAssignDenseDefault_get]
  · intro k hk
    have hle := hWF.1
    rw [svAssignDenseVectorized_get sv ps W us al thr m rhs hWF hW
          (sv.offset_ + k) (by omega),
        if_pos (by omega)]
    congr 1
    omega

theorem spec_c4_witness :
    svWF ⟨5, 2, 6, 0, 6, true⟩ 10 2 ∧ 0 < 2 ∧
    ((∀ q, q < 10 →
        svAssignDenseVectorized ⟨5, 2, 6, 0, 6, true⟩ 2 true 3 false
            ((fun _ => 0) : Mem) (fun k => (k : Int)) q =
          svAssignDenseDefault ⟨5, 2, 6, 0, 6, true⟩ ((fun _ => 0) : Mem)
            (fun k => (k : Int)) q) ∧
      (∀ k, k < DenseSubvector.size_ ⟨5, 2, 6, 0, 6, true⟩ →
        svAssignDenseVectorized ⟨5, 2, 6, 0, 6, true⟩ 2 true 3 false
            ((fun _ => 0) : Mem) (fun k => (k : Int))
            (DenseSubvector.offset_ ⟨5, 2, 6, 0, 6, true⟩ + k) = (k : Int))) :=
  ⟨by decide, by decide,
    spec_c4_assign_path_equivalence ⟨5, 2, 6, 0, 6, true⟩ 10 2 true false 3
      ((fun _ => 0) : Mem) (fun k => (k : Int)) (by decide) (by decide)⟩

/-- C5: multiply-assignment of a sparse source snapshots the current dense
values, resets the view, and writes `snapshot[index] * value` for each
non-zero entry: every view position absent from the non-zero list becomes
0 and every present position `k` becomes `oldValue[k] * value[k]`;
concretely the view `[1,2,3,4]` multiplied by the sparse source whose only
entry is index 1 with value 5 yields `[0,10,0,0]`.  The sparse operand's
iterator yields each index at most once (`Nodup`). -/
theorem spec_c5_sparse_mult_assign (sv : DenseSubvector) (m : Mem)
    (rhs : SparseVec) (hnd : (rhs.map Prod.fst).Nodup) :
    (∀ k, k < sv.size_ →
      svMultAssignSparse sv m rhs (sv.offset_ + k) =
        (List.lookup k rhs).elim 0 (fun v => m (sv.offset_ + k) * v)) ∧
    (svMultAssignSparse ⟨0, 0, 4, 0, 4, true⟩
        ((fun i => (i : Int) + 1) : Mem) [(1, 5)] 0 = 0 ∧
      svMultAssignSparse ⟨0, 0, 4, 0, 4, true⟩
        ((fun i => (i : Int) + 1) : Mem) [(1, 5)] 1 = 10 ∧
      svMultAssignSparse ⟨0, 0, 4, 0, 4, true⟩
        ((fun i => (i : Int) + 1) : Mem) [(1, 5)] 2 = 0 ∧
      svMultAssignSparse ⟨0, 0, 4, 0, 4, true⟩
        ((fun i => (i : Int) + 1) : Mem) [(1, 5)] 3 = 0) := by
  constructor
  · intro k hk
    exact svMultAssignSparse_get sv m rhs hnd k hk
  · refine ⟨?_, ?_, ?_, ?_⟩
    · have h := svMultAssignSparse_get ⟨0, 0, 4, 0, 4, true⟩
        ((fun i => (i : Int) + 1) : Mem) [(1, 5)] (by decide) 0 (by decide)
      simpa [List.lookup] using h
    · have h := svMultAssignSparse_get ⟨0, 0, 4, 0, 4, true⟩
        ((fun i => (i : Int) + 1) : Mem) [(1, 5)] (by decide) 1 (by decide)
      simpa [List.lookup] using h
    · have h := svMultAssignSparse_get ⟨0, 0, 4, 0, 4, true⟩
        ((fun i => (i : Int) + 1) : Mem) [(1, 5)] (by decide) 2 (by decide)
      simpa [List.lookup] using h
    · have h := svMultAssignSparse_get ⟨0, 0, 4, 0, 4, true⟩
        ((fun i => (i : Int) + 1) : Mem) [(1, 5)] (by decide) 3 (by decide)
      simpa [List.lookup] using h

theorem spec_c5_witness :
    ((([(1, 5)] : SparseVec).map Prod.fst).Nodup) ∧
    ((∀ k, k < DenseSubvector.size_ ⟨3, 2, 4, 0, 4, true⟩ →
        svMultAssignSparse ⟨3, 2, 4, 0, 4, true⟩ ((fun _ => 2) : Mem) [(1, 5)]
            (DenseSubvector.offset_ ⟨3, 2, 4, 0, 4, true⟩ + k) =
          (List.lookup k [(1, 5)]).elim 0
            (fun v => ((fun _ => 2) : Mem)
              (DenseSubvector.offset_ ⟨3, 2, 4, 0, 4, true⟩ + k) * v)) ∧
      (svMultAssignSparse ⟨0, 0, 4, 0, 4, true⟩
          ((fun i => (i : Int) + 1) : Mem) [(1, 5)] 0 = 0 ∧
        svMultAssignSparse ⟨0, 0, 4, 0, 4, true⟩
          ((fun i => (i : Int) + 1) : Mem) [(1, 5)] 1 = 10 ∧
        svMultAssignSparse ⟨0, 0, 4, 0, 4, true⟩
          ((fun i => (i : Int) + 1) : Mem) [(1, 5)] 2 = 0 ∧
        svMultAssignSparse ⟨0, 0, 4, 0, 4, true⟩
          ((fun i => (i : Int) + 1) : Mem) [(1, 5)] 3 = 0)) :=
  ⟨by decide,
    spec_c5_sparse_mult_assign ⟨3, 2, 4, 0, 4, true⟩ ((fun _ => 2) : Mem)
      [(1, 5)] (by decide)⟩

/-- C10 (implicit frame property): under the size-match precondition, every
mutating operation on the view — the scalar fill `operator=`, `reset`,
`scale`, the scalar and vectorized dense `assign` kernels, the scalar and
vectorized dense compound kernels (any element operation `f`, covering
`addAssign`, `subAssign`, `multAssign`), and the sparse
`assign`/`addAssign`/`subAssign`/`multAssign` kernels — leaves every parent
element below `parent.size()` outside `[offset, offset+length)` unchanged:
the partial-register tail of `storeu` writes only the `rest_` valid lanes
when the view is unaligned, and an aligned full-register tail store past
`offset+length` only occurs when the view runs flush to the parent's end,
i.e. at indices at or beyond `parent.size()`. -/
theorem spec_c10_mutations_stay_in_window (sv : DenseSubvector) (ps W : Nat)
    (f : Int → Int → Int) (m : Mem) (rhs : Nat → Int) (sp : SparseVec)
    (v s : Int) (us al : Bool) (thr : Nat)
    (hWF : svWF sv ps W) (hW : 0 < W) (hsp : ∀ e ∈ sp, e.1 < sv.size_)
    (q : Nat) (hq : q < ps)
    (hout : q < sv.offset_ ∨ sv.offset_ + sv.size_ ≤ q) :
    svAssignScalar sv m v q = m q ∧
    svReset sv m q = m q ∧
    svScale sv m s q = m q ∧
    svAssignDenseDefault sv m rhs q = m q ∧
    svAssignDenseVectorized sv W us thr al m rhs q = m q ∧
    svOpDenseDefault f sv m rhs q = m q ∧
    svOpDenseVectorized f sv W m rhs q = m q ∧
    svAssignSparse sv m sp q = m q ∧
    svAddAssignSparse sv m sp q = m q ∧
    svSubAssignSparse sv m sp q = m q ∧
    svMultAssignSparse sv m sp q = m q := by
  have hreset : svReset sv m q = m q := by
    unfold svReset
    rw [svFillLoop_get 0 sv.size_ sv.offset_ (sv.offset_ + sv.size_) (by omega),
        if_neg (by omega)]
  refine ⟨?_, hreset, ?_, ?_, ?_, ?_, ?_, ?_, ?_, ?_, ?_⟩
  · unfold svAssignScalar
    rw [svFillLoop_get v sv.size_ sv.offset_ (sv.offset_ + sv.size_) (by omega),
        if_neg (by omega)]
  · unfold svScale
    rw [svScaleLoop_get s sv.size_ sv.offset_ (sv.offset_ + sv.size_) (by omega),
        if_neg (by omega)]
  · rw [svAssignDenseDefault_get, if_neg (by omega)]
  · rw [svAssignDenseVectorized_get sv ps W us al thr m rhs hWF hW q hq,
        if_neg (by omega)]
  · exact svOpDenseDefault_frame f sv m rhs q hout
  · exact svOpDenseVectorized_frame f sv ps W hWF hW m rhs q hq hout
  · exact sparseFold_frame sv.offset_ sv.size_ (fun _ e => e.2) sp m q hsp hout
  · exact sparseFold_frame sv.offset_ sv.size_
      (fun mm e => mm (e.1 + sv.offset_) + e.2) sp m q hsp hout
  · exact sparseFold_frame sv.offset_ sv.size_
      (fun mm e => mm (e.1 + sv.offset_) - e.2) sp m q hsp hout
  · calc svMultAssignSparse sv m sp q
        = svReset sv m q := sparseFold_frame sv.offset_ sv.size_
            (fun _ e => m (sv.offset_ + e.1) * e.2) sp (svReset sv m) q hsp hout
      _ = m q := hreset

theorem spec_c10_witness :
    svWF ⟨5, 2, 6, 0, 6, true⟩ 10 2 ∧ 0 < 2 ∧
    (∀ e ∈ ([(0, 3)] : SparseVec), e.1 < DenseSubvector.size_ ⟨5, 2, 6, 0, 6, true⟩) ∧
    9 < 10 ∧
    (9 < DenseSubvector.offset_ ⟨5, 2, 6, 0, 6, true⟩ ∨
      DenseSubvector.offset_ ⟨5, 2, 6, 0, 6, true⟩ +
        DenseSubvector.size_ ⟨5, 2, 6, 0, 6, true⟩ ≤ 9) ∧
    (svAssignScalar ⟨5, 2, 6, 0, 6, true⟩ ((fun _ => 0) : Mem) 1 9 =
        ((fun _ => 0) : Mem) 9 ∧
      svReset ⟨5, 2, 6, 0, 6, true⟩ ((fun _ => 0) : Mem) 9 =
        ((fun _ => 0) : Mem) 9 ∧
      svScale ⟨5, 2, 6, 0, 6, true⟩ ((fun _ => 0) : Mem) 2 9 =
        ((fun _ => 0) : Mem) 9 ∧
      svAssignDenseDefault ⟨5, 2, 6, 0, 6, true⟩ ((fun _ => 0) : Mem)
          (fun k => (k : Int)) 9 = ((fun _ => 0) : Mem) 9 ∧
      svAssignDenseVectorized ⟨5, 2, 6, 0, 6, true⟩ 2 true 3 false
          ((fun _ => 0) : Mem) (fun k => (k : Int)) 9 = ((fun _ => 0) : Mem) 9 ∧
      svOpDenseDefault (· + ·) ⟨5, 2, 6, 0, 6, true⟩ ((fun _ => 0) : Mem)
          (fun k => (k : Int)) 9 = ((fun _ => 0) : Mem) 9 ∧
      svOpDenseVectorized (· + ·) ⟨5, 2, 6, 0, 6, true⟩ 2 ((fun _ => 0) : Mem)
          (fun k => (k : Int)) 9 = ((fun _ => 0) : Mem) 9 ∧
      svAssignSparse ⟨5, 2, 6, 0, 6, true⟩ ((fun _ => 0) : Mem) [(0, 3)] 9 =
        ((fun _ => 0) : Mem) 9 ∧
      svAddAssignSparse ⟨5, 2, 6, 0, 6, true⟩ ((fun _ => 0) : Mem) [(0, 3)] 9 =
        ((fun _ => 0) : Mem) 9 ∧
      svSubAssignSparse ⟨5, 2, 6, 0, 6, true⟩ ((fun _ => 0) : Mem) [(0, 3)] 9 =
        ((fun _ => 0) : Mem) 9 ∧
      svMultAssignSparse ⟨5, 2, 6, 0, 6, true⟩ ((fun _ => 0) : Mem) [(0, 3)] 9 =
        ((fun _ => 0) : Mem) 9) :=
  ⟨by decide, by decide, by decide, by decide, by decide,
    spec_c10_mutations_stay_in_window ⟨5, 2, 6, 0, 6, true⟩ 10 2 (· + ·)
      ((fun _ => 0) : Mem) (fun k => (k : Int)) [(0, 3)] 1 2 true false 3
      (by decide) (by decide) (by decide) 9 (by decide) (by decide)⟩
